import Mathlib

/-!
Verification of the PM Internship allocation engine
(`backend/services/affirmative_action_service.py` and the salary-attractiveness
scoring in `backend/services/internship_scraper_service.py` /
`backend/services/enhanced_internship_service.py`).

Modelling conventions:
* Python floats are modelled exactly by `ℚ` (the source only adds, multiplies,
  divides and compares values of moderate size).
* Python `int(x)` (truncation towards zero) is modelled by `py_int` below.
* A Python dict field read `d.get(k, default)` is modelled by a record field
  that already carries the default, except for `candidate_id` / `internship_id`
  where the raw `d.get(k)` result (possibly `None`) is used as a dict key by
  the source; those are modelled as `Option String`.
* A Python `KeyError` (raised by `internship_capacity_used[internship_id] += 1`
  when the id was never initialised) aborts the run; runs are therefore
  modelled in `Except String`.
-/

-- `Rat.add` and friends are `@[irreducible]` in Batteries; unseal them so that
-- concrete runs of the executable model can be evaluated by `decide`.
unseal Rat.add Rat.mul Rat.inv Rat.sub Rat.ofScientific

/-! ### Small Python-modelling helpers -/

/-- Python `int(x)` for a real value `x`: truncation towards zero. -/
def py_int (q : ℚ) : ℤ := q.num.tdiv q.den

/-- Python `str.lower()` (the source only feeds it ASCII data). -/
def py_lower (s : String) : String := ⟨s.data.map Char.toLower⟩

/-- `starts_with n h`: the char list `n` is a prefix of `h`. -/
def starts_with : List Char → List Char → Bool
  | [], _ => true
  | _ :: _, [] => false
  | c :: n, d :: h => c == d && starts_with n h

/-- Python `needle in hay` on strings (substring containment), char-list level. -/
def has_sublist (n : List Char) : List Char → Bool
  | [] => starts_with n []
  | d :: h => starts_with n (d :: h) || has_sublist n h

/-- Python `needle in hay` for strings. -/
def str_contains (hay needle : String) : Bool := has_sublist needle.data hay.data

/-! ### Quota configuration and `_calculate_quota_slots`
(`affirmative_action_service.py`, lines 17-23 and 98-115) -/

/-- The default quota-percentage table set in `AffirmativeActionService.__init__`
(lines 17-23).  Note that the five configured percentages sum to `1.07`. -/
def default_quotas : List (String × ℚ) :=
  [("general", 475/1000), ("sc", 15/100), ("st", 75/1000), ("obc", 27/100), ("ews", 1/10)]

/-- `_calculate_quota_slots` (lines 98-115).  For each configured category,
`slots = max(1, int(total_capacity * percentage))`; if the slot total exceeds
the capacity, every count is rescaled by `total_capacity / total_allocated`
(re-applying `max(1, int(...))`).  Real arithmetic is modelled exactly on `ℚ`. -/
def calc_quota_slots (total_capacity : ℕ) (quotas : List (String × ℚ)) :
    List (String × ℕ) :=
  let quota_slots := quotas.map
    (fun cp => (cp.1, (max 1 (py_int ((total_capacity : ℚ) * cp.2))).toNat))
  let total_allocated := (quota_slots.map Prod.snd).sum
  if total_capacity < total_allocated then
    quota_slots.map
      (fun cs => (cs.1,
        (max 1 (py_int ((cs.2 : ℚ) * ((total_capacity : ℚ) / (total_allocated : ℚ))))).toNat))
  else
    quota_slots

example : calc_quota_slots 1 [("a", 1/2), ("b", 1/2)] = [("a", 1), ("b", 1)] := by decide

example : calc_quota_slots 3 default_quotas =
    [("general", 1), ("sc", 1), ("st", 1), ("obc", 1), ("ews", 1)] := by decide

example : calc_quota_slots 100 default_quotas =
    [("general", 44), ("sc", 14), ("st", 6), ("obc", 25), ("ews", 9)] := by decide

/-! ### Data model -/

/-- The closed quota-category set (`general|sc|st|obc|ews`). -/
inductive Cat
  | general | sc | st | obc | ews
  deriving DecidableEq, Repr

/-- One match dict, restricted to the fields read by the affirmative-action
service.  `score` stands for `match.get('score', 0)`, `social_category` for
`match.get('social_category', '')`, `location` for `match.get('location', '')`,
`gender` for `match.get('gender', '')`; the `Bool` fields are the truthiness of
the corresponding `match.get(...)` reads.  `candidate_id` / `internship_id` are
the raw `match.get(...)` results (`none` = key absent / `None`).  The last four
fields are written by `_apply_diversity_boosts` and default to the values an
un-boosted match dict yields through `.get`. -/
structure MatchRec where
  candidate_id : Option String
  internship_id : Option String
  score : ℚ := 0
  social_category : String := ""
  rural_background : Bool := false
  location : String := ""
  gender : String := ""
  pwd_status : Bool := false
  disability : Bool := false
  first_generation_learner : Bool := false
  original_score : Option ℚ := none
  boosted_score : Option ℚ := none
  diversity_boost : ℚ := 0
  boost_reasons : List String := []
  deriving DecidableEq, Repr

/-- One internship dict, restricted to the fields the service reads:
`id` is the raw `internship.get('id')`, `capacity` stands for
`internship.get('capacity', 1)` (so the default 1 is already applied). -/
structure Internship where
  id : Option String
  capacity : ℕ := 1
  deriving DecidableEq, Repr

/-- `_get_candidate_category` (lines 295-311): normalise the free-text
`social_category` field to a quota category, falling back to `general`. -/
def get_candidate_category (m : MatchRec) : Cat :=
  let s := py_lower m.social_category
  if s = "sc" ∨ s = "scheduled caste" then .sc
  else if s = "st" ∨ s = "scheduled tribe" then .st
  else if s = "obc" ∨ s = "other backward class" then .obc
  else if s = "ews" ∨ s = "economically weaker section" then .ews
  else .general

/-! ### `_apply_diversity_boosts` (lines 117-168) and the indicator checks
(lines 320-343), with the boost weights of lines 29-34 -/

/-- The fixed rural keyword set of `_is_rural_candidate` (lines 323-326). -/
def rural_indicators : List String :=
  ["village", "rural", "gram", "tehsil", "block", "mandal",
   "panchayat", "agricultural", "farming"]

/-- `_is_rural_candidate` (lines 320-329): some rural keyword occurs in the
lower-cased location string. -/
def is_rural_candidate (m : MatchRec) : Bool :=
  rural_indicators.any (fun ind => str_contains (py_lower m.location) ind)

/-- `_is_female_candidate` (lines 331-335). -/
def is_female_candidate (m : MatchRec) : Bool := py_lower m.gender = "female"

/-- `_is_pwd_candidate` (lines 337-339). -/
def is_pwd_candidate (m : MatchRec) : Bool := m.pwd_status || m.disability

/-- `_is_first_generation_candidate` (lines 341-343). -/
def is_first_gen_candidate (m : MatchRec) : Bool := m.first_generation_learner

/-- The additive boost accumulated by lines 127-148 for one match: the sum of
the configured weights (`self.diversity_boost`, lines 29-34) of exactly the
indicators that apply.  Line 131 checks `match.get('rural_background') or
self._is_rural_candidate(match)`. -/
def boost_factor (m : MatchRec) : ℚ :=
  (if m.rural_background || is_rural_candidate m then 5/100 else 0)
  + (if is_female_candidate m then 3/100 else 0)
  + (if is_pwd_candidate m then 5/100 else 0)
  + (if is_first_gen_candidate m then 4/100 else 0)

/-- The `boost_reasons` list accumulated by lines 127-148, in append order. -/
def boost_reason_list (m : MatchRec) : List String :=
  (if m.rural_background || is_rural_candidate m then ["Rural background"] else [])
  ++ (if is_female_candidate m then ["Gender diversity"] else [])
  ++ (if is_pwd_candidate m then ["Person with disability"] else [])
  ++ (if is_first_gen_candidate m then ["First-generation learner"] else [])

/-- The per-match body of `_apply_diversity_boosts` (lines 121-163):
`boosted_score = min(original_score + boost_factor, 1.0)`, recorded into the
copied match together with the boost provenance; `score` is overwritten with
the boosted score. -/
def apply_boost_one (m : MatchRec) : MatchRec :=
  { m with
    original_score := some m.score
    boosted_score := some (min (m.score + boost_factor m) 1)
    score := min (m.score + boost_factor m) 1
    diversity_boost := boost_factor m
    boost_reasons := boost_reason_list m }

/-- `_apply_diversity_boosts` (lines 117-168): boost every match, then re-sort
by (boosted) score, highest first.  Python's `list.sort` is stable, as is
`List.mergeSort`; `reverse=True` sorting by score is modelled by the
total comparator `b.score ≤ a.score`. -/
def apply_diversity_boosts (ms : List MatchRec) : List MatchRec :=
  (ms.map apply_boost_one).mergeSort (fun a b => decide (b.score ≤ a.score))

unseal List.merge List.mergeSort in
example :
    apply_diversity_boosts
      [{ candidate_id := some "c1", internship_id := some "i1", score := 9/10,
         location := "Barnala village, Punjab" }] =
      [{ candidate_id := some "c1", internship_id := some "i1", score := 19/20,
         location := "Barnala village, Punjab", original_score := some (9/10),
         boosted_score := some (19/20), diversity_boost := 5/100,
         boost_reasons := ["Rural background"] }] := by decide

/-! ### `update_quotas` (lines 412-420) -/

/-- Python `old.update(new)` on dicts (keys assumed unique per dict, as they
are in any Python dict): existing keys are overwritten in place, new keys are
appended in order. -/
def dict_update (old new : List (String × ℚ)) : List (String × ℚ) :=
  (old.map (fun kv => (kv.1, (new.lookup kv.1).getD kv.2)))
  ++ new.filter (fun kv => (old.lookup kv.1).isNone)

/-- `update_quotas` (lines 412-420): reject (raising `ValueError`, hence no
mutation of `self.quotas`) unless the new percentages sum to `1.0 ± 0.01`;
otherwise merge them into the stored table.  The returned value is the new
stored table. -/
def update_quotas (quotas new_quotas : List (String × ℚ)) :
    Except String (List (String × ℚ)) :=
  let total_quota := (new_quotas.map Prod.snd).sum
  if 1/100 < |total_quota - 1| then
    .error "Quota percentages must sum to 1.0"
  else
    .ok (dict_update quotas new_quotas)

/-! ### Salary-attractiveness scoring (claim C8)

Two distinct implementations exist in the repository. -/

/-- `_calculate_salary_attractiveness` in
`internship_scraper_service.py` (lines 993-1007): a step function of
`internship.get('salary_max', 0)`. -/
def calculate_salary_attractiveness (salary_max : ℚ) : ℚ :=
  if 40000 ≤ salary_max then 1
  else if 25000 ≤ salary_max then 8/10
  else if 15000 ≤ salary_max then 6/10
  else if 10000 ≤ salary_max then 4/10
  else 2/10

/-- The salary component computed inline by `_calculate_real_match_score` in
`enhanced_internship_service.py` (line 420):
`min(internship.get('salary_max', 15000) / 30000.0, 1.0)`. -/
def real_match_salary_score (salary_max : ℚ) : ℚ := min (salary_max / 30000) 1

/-- The weighted final-score formula shared by
`internship_scraper_service.calculate_detailed_match_score` (lines 866-872) and
`enhanced_internship_service._calculate_real_match_score` (lines 423-429):
skills 40%, category 25%, location 20%, experience 10%, salary 5%. -/
def weighted_final_score (skills category location experience salary : ℚ) : ℚ :=
  skills * (40/100) + category * (25/100) + location * (20/100)
  + experience * (10/100) + salary * (5/100)

/-- Modelled from the spec's words (§4.1 / claim C8): a step function of the
upper salary bound with thresholds at 10k/15k/25k/40k mapping to
0.2/0.4/0.6/0.8/1.0. -/
def spec_salary_step (salary_max : ℚ) : ℚ :=
  if salary_max < 10000 then 2/10
  else if salary_max < 15000 then 4/10
  else if salary_max < 25000 then 6/10
  else if salary_max < 40000 then 8/10
  else 1

/-! ### `_allocate_with_quotas` (lines 170-273)

The Python function also receives `internship_matches` (the grouping produced
by `_group_matches_by_internship`), but its body never reads it, so the
parameter is omitted here.  `quota_slots` always carries the five fixed
categories in real runs (it is produced by `_calculate_quota_slots` from
`self.quotas`, whose keys are never removed), so it is modelled as a
per-category count record; likewise `quota_filled`. -/

/-- A per-quota-category integer table (used for both `quota_slots` and
`quota_filled`). -/
structure CatCounts where
  general : ℕ := 0
  sc : ℕ := 0
  st : ℕ := 0
  obc : ℕ := 0
  ews : ℕ := 0
  deriving DecidableEq, Repr

/-- Read one category's count. -/
def CatCounts.get (c : CatCounts) : Cat → ℕ
  | .general => c.general
  | .sc => c.sc
  | .st => c.st
  | .obc => c.obc
  | .ews => c.ews

/-- `counts[cat] += 1`. -/
def CatCounts.inc (c : CatCounts) : Cat → CatCounts
  | .general => { c with general := c.general + 1 }
  | .sc => { c with sc := c.sc + 1 }
  | .st => { c with st := c.st + 1 }
  | .obc => { c with obc := c.obc + 1 }
  | .ews => { c with ews := c.ews + 1 }

/-- Convert the assoc-list quota plan of `_calculate_quota_slots` to the
per-category record (`quota_slots.get(cat, 0)`; lines 190 and 217 use `.get`,
line 244 indexes directly but all five keys are present in real runs). -/
def quota_slots_of_list (l : List (String × ℕ)) : CatCounts :=
  { general := (l.lookup "general").getD 0
    sc := (l.lookup "sc").getD 0
    st := (l.lookup "st").getD 0
    obc := (l.lookup "obc").getD 0
    ews := (l.lookup "ews").getD 0 }

/-- Python `d.get(k, 0)` on the capacity-used dict. -/
def dict_get (l : List (Option String × ℕ)) (k : Option String) : ℕ :=
  match l with
  | [] => 0
  | (k', v) :: rest => if k' = k then v else dict_get rest k

/-- Python `d[k] = v` on the capacity-used dict: overwrite in place, else
append. -/
def dict_set (l : List (Option String × ℕ)) (k : Option String) (v : ℕ) :
    List (Option String × ℕ) :=
  match l with
  | [] => [(k, v)]
  | (k', v') :: rest => if k' = k then (k', v) :: rest else (k', v') :: dict_set rest k v

/-- Python `d[k] += 1` on the capacity-used dict: `KeyError` when the key is
absent (this is what lines 214 and 262 can raise for a match whose
`internship_id` is not the id of any internship). -/
def incr_used (k : Option String) :
    List (Option String × ℕ) → Except String (List (Option String × ℕ))
  | [] => .error "KeyError"
  | (k', v) :: rest =>
    if k' = k then .ok ((k', v + 1) :: rest)
    else
      match incr_used k rest with
      | .error e => .error e
      | .ok rest' => .ok ((k', v) :: rest')

/-- Lines 180-183: `internship_capacity_used[internship.get('id')] = 0` for
every internship. -/
def init_capacity_used (internships : List Internship) : List (Option String × ℕ) :=
  internships.foldl (fun m i => dict_set m i.id 0) []

/-- `_get_internship_capacity` (lines 313-318): capacity of the first
internship whose id equals `internship_id`, defaulting to 1. -/
def get_internship_capacity (internship_id : Option String)
    (internships : List Internship) : ℕ :=
  match internships.find? (fun i => i.id == internship_id) with
  | some i => i.capacity
  | none => 1

/-- One allocation record (`_create_allocation_record`, lines 275-293),
restricted to the non-constant data fields; the copied display metadata
(`candidate_name`, `internship_title`, `match_analysis`, `strengths`,
`recommendations`) and the wall-clock `timestamp` are not modelled. -/
structure AllocRecord where
  candidate_id : Option String
  internship_id : Option String
  original_score : ℚ
  final_score : ℚ
  category : Cat
  allocation_type : String
  diversity_boost : ℚ
  boost_reasons : List String
  rural_background : Bool
  deriving DecidableEq, Repr

/-- `_create_allocation_record` (lines 275-293). -/
def create_allocation_record (m : MatchRec) (category : Cat)
    (allocation_type : String) : AllocRecord :=
  { candidate_id := m.candidate_id
    internship_id := m.internship_id
    original_score := m.original_score.getD m.score
    final_score := m.score
    category := category
    allocation_type := allocation_type
    diversity_boost := m.diversity_boost
    boost_reasons := m.boost_reasons
    rural_background := m.rural_background }

/-- The mutable state of one `_allocate_with_quotas` run (lines 174-186). -/
structure AllocState where
  final_allocations : List AllocRecord := []
  quota_filled : CatCounts := {}
  capacity_used : List (Option String × ℕ) := []
  allocated_candidates : List (Option String) := []
  deriving DecidableEq, Repr

/-- The guard shared by both phases (lines 200-203 and 224-227): skip a match
whose candidate is already allocated or whose internship is at capacity. -/
def skip_match (internships : List Internship) (s : AllocState) (m : MatchRec) : Prop :=
  m.candidate_id ∈ s.allocated_candidates
  ∨ get_internship_capacity m.internship_id internships ≤ dict_get s.capacity_used m.internship_id

instance (internships : List Internship) (s : AllocState) (m : MatchRec) :
    Decidable (skip_match internships s m) := by
  unfold skip_match; infer_instance

/-- The allocation action shared by both phases (record append, candidate-set
add, capacity increment — lines 208-214 / 256-262); the quota-counter
increment is done by the callers, matching where the Python code does it. -/
def do_allocate (s : AllocState) (m : MatchRec) (record_cat : Cat)
    (allocation_type : String) : Except String AllocState :=
  match incr_used m.internship_id s.capacity_used with
  | .error e => .error e
  | .ok cu =>
    .ok { s with
          final_allocations :=
            s.final_allocations ++ [create_allocation_record m record_cat allocation_type]
          capacity_used := cu
          allocated_candidates := s.allocated_candidates ++ [m.candidate_id] }

/-- The inner loop of Phase 1 for one reserved category (lines 192-214):
scan the matches, stopping (`break`) once the category's quota is filled,
and allocate each not-yet-allocated candidate of that category as `quota`. -/
def phase1_cat (internships : List Internship) (quota_limit : ℕ) (cat : Cat) :
    List MatchRec → AllocState → Except String AllocState
  | [], s => .ok s
  | m :: rest, s =>
    if quota_limit ≤ s.quota_filled.get cat then .ok s
    else if skip_match internships s m then phase1_cat internships quota_limit cat rest s
    else if get_candidate_category m = cat then
      match do_allocate { s with quota_filled := s.quota_filled.inc cat } m cat "quota" with
      | .error e => .error e
      | .ok s' => phase1_cat internships quota_limit cat rest s'
    else phase1_cat internships quota_limit cat rest s

/-- One Phase-2 step (lines 219-262): try `general`, then the first unfilled
reserved category (`merit_in_quota`), then general merit; the allocation
record's category is always the candidate's own category. -/
def phase2_step (internships : List Internship) (quota_slots : CatCounts)
    (s : AllocState) (m : MatchRec) : Except String AllocState :=
  if skip_match internships s m then .ok s
  else
    let ccat := get_candidate_category m
    if ccat = .general ∧ s.quota_filled.general < quota_slots.general then
      do_allocate { s with quota_filled := s.quota_filled.inc .general } m ccat "general"
    else
      match [Cat.sc, Cat.st, Cat.obc, Cat.ews].find?
          (fun c => decide (s.quota_filled.get c < quota_slots.get c)) with
      | some c =>
        do_allocate { s with quota_filled := s.quota_filled.inc c } m ccat "merit_in_quota"
      | none =>
        if s.quota_filled.general < quota_slots.general then
          do_allocate { s with quota_filled := s.quota_filled.inc .general } m ccat "merit"
        else .ok s

/-- The Phase-2 scan over all matches (lines 219-262). -/
def phase2 (internships : List Internship) (quota_slots : CatCounts) :
    List MatchRec → AllocState → Except String AllocState
  | [], s => .ok s
  | m :: rest, s =>
    match phase2_step internships quota_slots s m with
    | .error e => .error e
    | .ok s' => phase2 internships quota_slots rest s'

/-- The summary dict built at lines 267-272. -/
structure AllocSummary where
  total_allocated : ℕ
  total_capacity : ℕ
  quota_slots : CatCounts
  capacity_utilization : List (Option String × ℕ)
  deriving DecidableEq, Repr

/-- The result dict of `_allocate_with_quotas` (lines 264-273). -/
structure AllocOutput where
  final_allocations : List AllocRecord
  quota_fulfillment : CatCounts
  summary : AllocSummary
  deriving DecidableEq, Repr

/-- `_allocate_with_quotas` (lines 170-273): Phase 1 over the reserved
categories in the fixed order `sc, st, obc, ews`, then Phase 2. -/
def allocate_with_quotas (ms : List MatchRec) (quota_slots : CatCounts)
    (internships : List Internship) : Except String AllocOutput :=
  let s0 : AllocState := { capacity_used := init_capacity_used internships }
  match phase1_cat internships (quota_slots.get .sc) .sc ms s0 with
  | .error e => .error e
  | .ok s1 =>
    match phase1_cat internships (quota_slots.get .st) .st ms s1 with
    | .error e => .error e
    | .ok s2 =>
      match phase1_cat internships (quota_slots.get .obc) .obc ms s2 with
      | .error e => .error e
      | .ok s3 =>
        match phase1_cat internships (quota_slots.get .ews) .ews ms s3 with
        | .error e => .error e
        | .ok s4 =>
          match phase2 internships quota_slots ms s4 with
          | .error e => .error e
          | .ok s5 =>
            .ok { final_allocations := s5.final_allocations
                  quota_fulfillment := s5.quota_filled
                  summary :=
                    { total_allocated := s5.final_allocations.length
                      total_capacity := (s5.capacity_used.map Prod.snd).sum
                      quota_slots := quota_slots
                      capacity_utilization := s5.capacity_used } }

/-- `apply_affirmative_action` (lines 36-78), up to the allocation step
(lines 47-65): total capacity, quota plan, diversity boosts, allocation.
The subsequent `_generate_diversity_report` call (line 68) erroneously passes
the whole allocation dict where a list of allocation records is expected and
is outside the scope of the modelled claims; the grouping
`_group_matches_by_internship` (line 50) is computed but never consumed by the
allocation and is omitted. -/
def apply_affirmative_action (quotas : List (String × ℚ)) (ms : List MatchRec)
    (internships : List Internship) : Except String AllocOutput :=
  let total_capacity := (internships.map Internship.capacity).sum
  let quota_slots := quota_slots_of_list (calc_quota_slots total_capacity quotas)
  let boosted := apply_diversity_boosts ms
  allocate_with_quotas boosted quota_slots internships

deriving instance DecidableEq for Except

-- Scenario A of spec §8: one internship of capacity 2; candidates 0.90
-- (general), 0.80 (sc), 0.70 (general); plan {sc:1, general:1}.
unseal List.merge List.mergeSort in
example :
    (allocate_with_quotas
      (apply_diversity_boosts
        [{ candidate_id := some "c1", internship_id := some "i1", score := 9/10 },
         { candidate_id := some "c2", internship_id := some "i1", score := 8/10,
           social_category := "sc" },
         { candidate_id := some "c3", internship_id := some "i1", score := 7/10 }])
      { general := 1, sc := 1 }
      [{ id := some "i1", capacity := 2 }]).map
      (fun out => out.final_allocations.map
        (fun a => (a.candidate_id, a.allocation_type))) =
    .ok [(some "c2", "quota"), (some "c1", "general")] := by decide

/-! ### Run invariants -/

/-- Number of allocation records naming a given internship id. -/
def countIntern : List AllocRecord → Option String → ℕ
  | [], _ => 0
  | a :: rest, k => (if a.internship_id = k then 1 else 0) + countIntern rest k

theorem countIntern_append (l₁ l₂ : List AllocRecord) (k : Option String) :
    countIntern (l₁ ++ l₂) k = countIntern l₁ k + countIntern l₂ k := by
  induction l₁ with
  | nil => simp [countIntern]
  | cons a rest ih => simp [countIntern, ih]; omega

/-- The state invariant maintained by both allocation phases. -/
def AllocInv (internships : List Internship) (s : AllocState) : Prop :=
  (s.final_allocations.map AllocRecord.candidate_id).Nodup
  ∧ (∀ a ∈ s.final_allocations, a.candidate_id ∈ s.allocated_candidates)
  ∧ (∀ k, countIntern s.final_allocations k = dict_get s.capacity_used k)
  ∧ (∀ k, dict_get s.capacity_used k ≤ get_internship_capacity k internships)
  ∧ (s.capacity_used.map Prod.snd).sum = s.final_allocations.length

theorem incr_used_ok_get_self {k : Option String}
    {l l' : List (Option String × ℕ)} (h : incr_used k l = .ok l') :
    dict_get l' k = dict_get l k + 1 := by
  induction l generalizing l' with
  | nil => simp [incr_used] at h
  | cons p rest ih =>
    obtain ⟨k', v⟩ := p
    by_cases hk : k' = k
    · subst hk
      simp [incr_used] at h
      subst h
      simp [dict_get]
    · simp only [incr_used, if_neg hk] at h
      cases hrest : incr_used k rest with
      | error e => rw [hrest] at h; exact absurd h (by simp)
      | ok rest' =>
        rw [hrest] at h
        simp only [Except.ok.injEq] at h
        subst h
        simp [dict_get, if_neg hk, ih hrest]

theorem incr_used_ok_get_ne {k k' : Option String}
    {l l' : List (Option String × ℕ)} (h : incr_used k l = .ok l') (hne : k' ≠ k) :
    dict_get l' k' = dict_get l k' := by
  induction l generalizing l' with
  | nil => simp [incr_used] at h
  | cons p rest ih =>
    obtain ⟨k₀, v⟩ := p
    by_cases hk : k₀ = k
    · subst hk
      simp [incr_used] at h
      subst h
      have hne' : k₀ ≠ k' := fun hx => hne hx.symm
      simp [dict_get, if_neg hne']
    · simp only [incr_used, if_neg hk] at h
      cases hrest : incr_used k rest with
      | error e => rw [hrest] at h; exact absurd h (by simp)
      | ok rest' =>
        rw [hrest] at h
        simp only [Except.ok.injEq] at h
        subst h
        by_cases hk' : k₀ = k'
        · simp [dict_get, hk']
        · simp [dict_get, if_neg hk', ih hrest]

theorem incr_used_ok_sum {k : Option String}
    {l l' : List (Option String × ℕ)} (h : incr_used k l = .ok l') :
    (l'.map Prod.snd).sum = (l.map Prod.snd).sum + 1 := by
  induction l generalizing l' with
  | nil => simp [incr_used] at h
  | cons p rest ih =>
    obtain ⟨k₀, v⟩ := p
    by_cases hk : k₀ = k
    · simp [incr_used, hk] at h
      subst h
      simp; omega
    · simp only [incr_used, if_neg hk] at h
      cases hrest : incr_used k rest with
      | error e => rw [hrest] at h; exact absurd h (by simp)
      | ok rest' =>
        rw [hrest] at h
        simp only [Except.ok.injEq] at h
        subst h
        simp [ih hrest]; omega

theorem dict_set_zero_vals {l : List (Option String × ℕ)} {k : Option String}
    (h : ∀ p ∈ l, p.2 = 0) : ∀ p ∈ dict_set l k 0, p.2 = 0 := by
  induction l with
  | nil => simp [dict_set]
  | cons q rest ih =>
    intro p hp
    obtain ⟨k', v⟩ := q
    by_cases hk : k' = k
    · simp [dict_set, hk] at hp
      rcases hp with hp | hp
      · simp [hp]
      · exact h p (List.mem_cons_of_mem _ hp)
    · simp [dict_set, if_neg hk] at hp
      rcases hp with hp | hp
      · subst hp; exact h (k', v) (List.mem_cons_self _ _)
      · exact ih (fun q hq => h q (List.mem_cons_of_mem _ hq)) p hp

theorem init_capacity_used_vals (internships : List Internship) :
    ∀ p ∈ init_capacity_used internships, p.2 = 0 := by
  unfold init_capacity_used
  suffices h : ∀ (acc : List (Option String × ℕ)), (∀ p ∈ acc, p.2 = 0) →
      ∀ p ∈ internships.foldl (fun m i => dict_set m i.id 0) acc, p.2 = 0 by
    exact h [] (by simp)
  induction internships with
  | nil => intro acc hacc; simpa using hacc
  | cons i rest ih =>
    intro acc hacc
    simpa using ih (dict_set acc i.id 0) (dict_set_zero_vals hacc)

theorem dict_get_of_zero_vals {l : List (Option String × ℕ)}
    (h : ∀ p ∈ l, p.2 = 0) (k : Option String) : dict_get l k = 0 := by
  induction l with
  | nil => simp [dict_get]
  | cons q rest ih =>
    obtain ⟨k', v⟩ := q
    by_cases hk : k' = k
    · simpa [dict_get, hk] using h (k', v) (List.mem_cons_self _ _)
    · simp [dict_get, if_neg hk]
      exact ih fun q hq => h q (List.mem_cons_of_mem _ hq)

theorem init_capacity_used_get (internships : List Internship) (k : Option String) :
    dict_get (init_capacity_used internships) k = 0 :=
  dict_get_of_zero_vals (init_capacity_used_vals internships) k

theorem init_capacity_used_sum (internships : List Internship) :
    ((init_capacity_used internships).map Prod.snd).sum = 0 := by
  apply List.sum_eq_zero
  intro x hx
  simp only [List.mem_map] at hx
  obtain ⟨p, hp, rfl⟩ := hx
  exact init_capacity_used_vals internships p hp

/-- The initial allocation state satisfies the invariant. -/
theorem alloc_inv_init (internships : List Internship) :
    AllocInv internships { capacity_used := init_capacity_used internships } := by
  refine ⟨by simp, by simp, ?_, ?_, ?_⟩
  · intro k; simp [countIntern, init_capacity_used_get]
  · intro k; simp [init_capacity_used_get]
  · simp [init_capacity_used_sum]

/-- `do_allocate` preserves the invariant when its guards hold.  The state it
is applied to may carry an updated `quota_filled` (which the invariant does
not mention). -/
theorem do_allocate_inv {internships : List Internship} {s s' : AllocState}
    {m : MatchRec} {qf : CatCounts} {rc : Cat} {t : String}
    (hInv : AllocInv internships s)
    (hcid : m.candidate_id ∉ s.allocated_candidates)
    (hcap : dict_get s.capacity_used m.internship_id
      < get_internship_capacity m.internship_id internships)
    (h : do_allocate { s with quota_filled := qf } m rc t = .ok s') :
    AllocInv internships s' := by
  obtain ⟨h1, h2, h3, h4, h5⟩ := hInv
  unfold do_allocate at h
  cases hinc : incr_used m.internship_id s.capacity_used with
  | error e => simp [hinc] at h
  | ok cu =>
    simp only [hinc] at h
    simp only [Except.ok.injEq] at h
    subst h
    refine ⟨?_, ?_, ?_, ?_, ?_⟩
    · simp only [List.map_append, List.map_cons, List.map_nil]
      rw [List.nodup_append]
      refine ⟨h1, by simp, ?_⟩
      intro x hx
      simp only [List.mem_map] at hx
      obtain ⟨a, ha, rfl⟩ := hx
      simp only [create_allocation_record, List.mem_singleton]
      intro heq
      exact hcid (heq ▸ h2 a ha)
    · intro a ha
      simp only [List.mem_append, List.mem_singleton] at ha
      rcases ha with ha | ha
      · exact List.mem_append_left _ (h2 a ha)
      · subst ha
        simp [create_allocation_record]
    · intro k
      rw [countIntern_append]
      by_cases hk : k = m.internship_id
      · subst hk
        rw [incr_used_ok_get_self hinc, ← h3 m.internship_id]
        simp [countIntern, create_allocation_record]
      · rw [incr_used_ok_get_ne hinc hk, ← h3 k]
        simp [countIntern, create_allocation_record,
          if_neg (fun hx : m.internship_id = k => hk hx.symm)]
    · intro k
      by_cases hk : k = m.internship_id
      · subst hk
        rw [incr_used_ok_get_self hinc]
        omega
      · rw [incr_used_ok_get_ne hinc hk]
        exact h4 k
    · rw [incr_used_ok_sum hinc, h5]
      simp

/-- Phase 1 (one category) preserves the invariant. -/
theorem phase1_cat_inv {internships : List Internship} {lim : ℕ} {cat : Cat}
    (ms : List MatchRec) :
    ∀ {s s' : AllocState}, AllocInv internships s →
      phase1_cat internships lim cat ms s = .ok s' → AllocInv internships s' := by
  induction ms with
  | nil =>
    intro s s' hInv h
    simp only [phase1_cat, Except.ok.injEq] at h
    exact h ▸ hInv
  | cons m rest ih =>
    intro s s' hInv h
    simp only [phase1_cat] at h
    by_cases hbrk : lim ≤ s.quota_filled.get cat
    · rw [if_pos hbrk] at h
      simp only [Except.ok.injEq] at h
      exact h ▸ hInv
    · rw [if_neg hbrk] at h
      by_cases hskip : skip_match internships s m
      · rw [if_pos hskip] at h
        exact ih hInv h
      · rw [if_neg hskip] at h
        by_cases hcat : get_candidate_category m = cat
        · rw [if_pos hcat] at h
          cases hda : do_allocate { s with quota_filled := s.quota_filled.inc cat }
              m cat "quota" with
          | error e => rw [hda] at h; simp at h
          | ok s₂ =>
            rw [hda] at h
            have hng := hskip
            unfold skip_match at hng
            push_neg at hng
            exact ih (do_allocate_inv hInv hng.1 hng.2 hda) h
        · rw [if_neg hcat] at h
          exact ih hInv h

/-- One Phase-2 step preserves the invariant. -/
theorem phase2_step_inv {internships : List Internship} {qs : CatCounts}
    {s s' : AllocState} {m : MatchRec} (hInv : AllocInv internships s)
    (h : phase2_step internships qs s m = .ok s') : AllocInv internships s' := by
  simp only [phase2_step] at h
  by_cases hskip : skip_match internships s m
  · rw [if_pos hskip] at h
    simp only [Except.ok.injEq] at h
    exact h ▸ hInv
  · rw [if_neg hskip] at h
    have hng := hskip
    unfold skip_match at hng
    push_neg at hng
    by_cases hgen : get_candidate_category m = .general ∧
        s.quota_filled.general < qs.general
    · rw [if_pos hgen] at h
      exact do_allocate_inv hInv hng.1 hng.2 h
    · rw [if_neg hgen] at h
      cases hfind : [Cat.sc, Cat.st, Cat.obc, Cat.ews].find?
          (fun c => decide (s.quota_filled.get c < qs.get c)) with
      | some c =>
        rw [hfind] at h
        exact do_allocate_inv hInv hng.1 hng.2 h
      | none =>
        rw [hfind] at h
        by_cases hg2 : s.quota_filled.general < qs.general
        · rw [if_pos hg2] at h
          exact do_allocate_inv hInv hng.1 hng.2 h
        · rw [if_neg hg2] at h
          simp only [Except.ok.injEq] at h
          exact h ▸ hInv

/-- Phase 2 preserves the invariant. -/
theorem phase2_inv {internships : List Internship} {qs : CatCounts}
    (ms : List MatchRec) :
    ∀ {s s' : AllocState}, AllocInv internships s →
      phase2 internships qs ms s = .ok s' → AllocInv internships s' := by
  induction ms with
  | nil =>
    intro s s' hInv h
    simp only [phase2, Except.ok.injEq] at h
    exact h ▸ hInv
  | cons m rest ih =>
    intro s s' hInv h
    simp only [phase2] at h
    cases hstep : phase2_step internships qs s m with
    | error e => rw [hstep] at h; simp at h
    | ok s₂ =>
      rw [hstep] at h
      exact ih (phase2_step_inv hInv hstep) h

/-- Every successful `_allocate_with_quotas` run ends in a state satisfying
the invariant, and the output is assembled from that state. -/
theorem allocate_ok_inv {ms : List MatchRec} {qs : CatCounts}
    {internships : List Internship} {out : AllocOutput}
    (h : allocate_with_quotas ms qs internships = .ok out) :
    ∃ s : AllocState, AllocInv internships s
      ∧ out.final_allocations = s.final_allocations
      ∧ out.summary.total_allocated = s.final_allocations.length
      ∧ out.summary.total_capacity = (s.capacity_used.map Prod.snd).sum := by
  simp only [allocate_with_quotas] at h
  split at h
  next e h1 => simp at h
  next s1 h1 =>
    split at h
    next e h2 => simp at h
    next s2 h2 =>
      split at h
      next e h3 => simp at h
      next s3 h3 =>
        split at h
        next e h4 => simp at h
        next s4 h4 =>
          split at h
          next e h5 => simp at h
          next s5 h5 =>
            simp only [Except.ok.injEq] at h
            subst h
            exact ⟨s5,
              phase2_inv ms
                (phase1_cat_inv ms
                  (phase1_cat_inv ms
                    (phase1_cat_inv ms
                      (phase1_cat_inv ms (alloc_inv_init internships) h1) h2) h3) h4) h5,
              rfl, rfl, rfl⟩

/-- With pairwise-distinct internship ids, `find?` on an internship's own id
returns that internship. -/
theorem find_id_of_nodup {internships : List Internship} {i : Internship}
    (hnd : (internships.map Internship.id).Nodup) (hmem : i ∈ internships) :
    internships.find? (fun j => j.id == i.id) = some i := by
  induction internships with
  | nil => simp at hmem
  | cons j rest ih =>
    simp only [List.map_cons, List.nodup_cons] at hnd
    rcases List.mem_cons.mp hmem with rfl | hmem'
    · simp [List.find?_cons_of_pos]
    · have hne : j.id ≠ i.id := by
        intro he
        exact hnd.1 (he ▸ List.mem_map_of_mem Internship.id hmem')
      rw [List.find?_cons_of_neg _ (by simpa using hne)]
      exact ih hnd.2 hmem'

/-- C2: in every completed `_allocate_with_quotas` run (over any match list,
quota plan and internship list), no `candidate_id` appears in more than one
record of `final_allocations` — Phase 1 and Phase 2 both guard on and update
the `allocated_candidates` set. -/
theorem C2_no_duplicate_candidates {ms : List MatchRec} {qs : CatCounts}
    {internships : List Internship} {out : AllocOutput}
    (h : allocate_with_quotas ms qs internships = .ok out) :
    (out.final_allocations.map AllocRecord.candidate_id).Nodup := by
  obtain ⟨s, hInv, hfa, -, -⟩ := allocate_ok_inv h
  rw [hfa]
  exact hInv.1

/-- A run that maps to `ok` is `ok`. -/
theorem except_ok_exists {ε α : Type _} (x : Except ε α)
    (h : x.map (fun _ => true) = Except.ok true) : ∃ a, x = Except.ok a := by
  cases x with
  | error e => simp [Except.map] at h
  | ok a => exact ⟨a, rfl⟩

/-- Witness for C2: a concrete two-candidate run. -/
theorem C2_no_duplicate_candidates_witness :
    ∃ out,
      allocate_with_quotas
        [{ candidate_id := some "c1", internship_id := some "i1", score := 1 },
         { candidate_id := some "c2", internship_id := some "i1", score := 1 }]
        { general := 2 }
        [{ id := some "i1", capacity := 2 }] = .ok out
      ∧ (out.final_allocations.map AllocRecord.candidate_id).Nodup := by
  obtain ⟨out, hrun⟩ := except_ok_exists
    (allocate_with_quotas
      [{ candidate_id := some "c1", internship_id := some "i1", score := 1 },
       { candidate_id := some "c2", internship_id := some "i1", score := 1 }]
      { general := 2 }
      [{ id := some "i1", capacity := 2 }]) (by decide)
  exact ⟨out, hrun, C2_no_duplicate_candidates hrun⟩

/-- C3 counterexample: with two internships sharing the id `"a"` (capacities 2
and 1), two candidates are allocated to `"a"`, so the second listed internship
(capacity 1) receives more allocations than its capacity; the guard only ever
consults `_get_internship_capacity`, i.e. the first internship with that id. -/
theorem C3_counterexample :
    ({ id := some "a", capacity := 1 } : Internship) ∈
      ([{ id := some "a", capacity := 2 }, { id := some "a", capacity := 1 }] :
        List Internship)
    ∧ (allocate_with_quotas
        [{ candidate_id := some "c1", internship_id := some "a", score := 1 },
         { candidate_id := some "c2", internship_id := some "a", score := 1 }]
        { general := 1, sc := 1, st := 1, obc := 1, ews := 1 }
        [{ id := some "a", capacity := 2 }, { id := some "a", capacity := 1 }]).map
        (fun out => countIntern out.final_allocations (some "a")) = .ok 2
    ∧ ¬(2 ≤ ({ id := some "a", capacity := 1 } : Internship).capacity) := by
  refine ⟨?_, ?_, ?_⟩ <;> decide

/-- C3 (amended): in every completed run whose internships have pairwise
distinct ids, every internship of the input list receives at most
`capacity` allocations (capacity = `internship.get('capacity', 1)`).  Without
the distinctness assumption the bound is the capacity of the *first*
internship carrying the id, as the counterexample shows. -/
theorem C3_capacity_bound {ms : List MatchRec} {qs : CatCounts}
    {internships : List Internship} {out : AllocOutput}
    (hids : (internships.map Internship.id).Nodup)
    (h : allocate_with_quotas ms qs internships = .ok out) :
    ∀ i ∈ internships, countIntern out.final_allocations i.id ≤ i.capacity := by
  intro i hi
  obtain ⟨s, hInv, hfa, -, -⟩ := allocate_ok_inv h
  rw [hfa]
  calc countIntern s.final_allocations i.id
      = dict_get s.capacity_used i.id := hInv.2.2.1 i.id
    _ ≤ get_internship_capacity i.id internships := hInv.2.2.2.1 i.id
    _ = i.capacity := by
        unfold get_internship_capacity
        rw [find_id_of_nodup hids hi]

/-- Witness for the amended C3: a concrete capacity-1 run. -/
theorem C3_capacity_bound_witness :
    ∃ out,
      allocate_with_quotas
        [{ candidate_id := some "c1", internship_id := some "i1", score := 1 },
         { candidate_id := some "c2", internship_id := some "i1", score := 1 }]
        { general := 2 }
        [{ id := some "i1", capacity := 1 }] = .ok out
      ∧ countIntern out.final_allocations (some "i1") ≤ 1 := by
  obtain ⟨out, hrun⟩ := except_ok_exists
    (allocate_with_quotas
      [{ candidate_id := some "c1", internship_id := some "i1", score := 1 },
       { candidate_id := some "c2", internship_id := some "i1", score := 1 }]
      { general := 2 }
      [{ id := some "i1", capacity := 1 }]) (by decide)
  exact ⟨out, hrun, C3_capacity_bound (by decide) hrun ⟨some "i1", 1⟩ (by decide)⟩

unseal List.merge List.mergeSort in
/-- C9 counterexample: an internship with capacity 0 does not make the run
raise a validation error; the full pipeline completes normally (the
zero-capacity internship merely never receives an allocation). -/
theorem C9_counterexample :
    (apply_affirmative_action default_quotas
      [{ candidate_id := some "c1", internship_id := some "b", score := 1 }]
      [{ id := some "b", capacity := 0 }]).map
      (fun out => out.final_allocations) = .ok [] := by decide

/-- C9 (amended): no capacity validation exists; a capacity-0 internship id is
silently processed and simply never allocated (its capacity guard always
fails), in every completed run. -/
theorem C9_capacity_zero_unallocated {ms : List MatchRec} {qs : CatCounts}
    {internships : List Internship} {out : AllocOutput} {iid : Option String}
    (h : allocate_with_quotas ms qs internships = .ok out)
    (hcap : get_internship_capacity iid internships = 0) :
    countIntern out.final_allocations iid = 0 := by
  obtain ⟨s, hInv, hfa, -, -⟩ := allocate_ok_inv h
  rw [hfa]
  have h1 := hInv.2.2.1 iid
  have h2 := hInv.2.2.2.1 iid
  omega

/-- Witness for the amended C9. -/
theorem C9_capacity_zero_unallocated_witness :
    ∃ out,
      allocate_with_quotas
        [{ candidate_id := some "c1", internship_id := some "b", score := 1 }]
        { general := 1, sc := 1, st := 1, obc := 1, ews := 1 }
        [{ id := some "b", capacity := 0 }] = .ok out
      ∧ countIntern out.final_allocations (some "b") = 0 := by
  obtain ⟨out, hrun⟩ := except_ok_exists
    (allocate_with_quotas
      [{ candidate_id := some "c1", internship_id := some "b", score := 1 }]
      { general := 1, sc := 1, st := 1, obc := 1, ews := 1 }
      [{ id := some "b", capacity := 0 }]) (by decide)
  exact ⟨out, hrun, C9_capacity_zero_unallocated hrun (by decide)⟩

/-- C10: in every completed run, the summary's `total_capacity` is the sum of
the per-internship used counters, which equals the number of allocation
records, so `total_allocated` and `total_capacity` always coincide (it is not
the sum of declared capacities). -/
theorem C10_summary_total_capacity {ms : List MatchRec} {qs : CatCounts}
    {internships : List Internship} {out : AllocOutput}
    (h : allocate_with_quotas ms qs internships = .ok out) :
    out.summary.total_capacity = out.final_allocations.length
    ∧ out.summary.total_allocated = out.summary.total_capacity := by
  obtain ⟨s, hInv, hfa, hta, htc⟩ := allocate_ok_inv h
  refine ⟨?_, ?_⟩
  · rw [htc, hfa, hInv.2.2.2.2]
  · rw [hta, htc, hInv.2.2.2.2]

/-- Witness for C10: a run where one of three capacity slots is used. -/
theorem C10_summary_total_capacity_witness :
    ∃ out,
      allocate_with_quotas
        [{ candidate_id := some "c1", internship_id := some "i1", score := 1 }]
        { general := 1 }
        [{ id := some "i1", capacity := 2 }, { id := some "i2", capacity := 1 }]
        = .ok out
      ∧ out.summary.total_capacity = out.final_allocations.length := by
  obtain ⟨out, hrun⟩ := except_ok_exists
    (allocate_with_quotas
      [{ candidate_id := some "c1", internship_id := some "i1", score := 1 }]
      { general := 1 }
      [{ id := some "i1", capacity := 2 }, { id := some "i2", capacity := 1 }]) (by decide)
  exact ⟨out, hrun, (C10_summary_total_capacity hrun).1⟩

/-- C1: the quota plan can exceed the total capacity even for a valid
percentage table (each ≥ 0, summing to 1.0 exactly): with `C = 1` and two
50% categories, both initial and re-scaled slot counts are forced to 1 by
`max(1, ...)`, so the plan sums to 2 > 1 — despite the source's own
"Ensure total doesn't exceed capacity" comment (line 106). -/
theorem C1_quota_plan_exceeds_capacity :
    (∀ p ∈ ([("a", (1:ℚ)/2), ("b", (1:ℚ)/2)] : List (String × ℚ)), 0 ≤ p.2)
    ∧ |((([("a", (1:ℚ)/2), ("b", (1:ℚ)/2)] : List (String × ℚ)).map Prod.snd).sum) - 1|
        ≤ 1/100
    ∧ ((calc_quota_slots 1 [("a", 1/2), ("b", 1/2)]).map Prod.snd).sum = 2
    ∧ 1 < ((calc_quota_slots 1 [("a", 1/2), ("b", 1/2)]).map Prod.snd).sum := by
  refine ⟨by decide, ?_, by decide, by decide⟩
  norm_num [List.sum_cons, List.sum_nil]

unseal List.merge List.mergeSort in
/-- C4 counterexample: empty matches and internships produce no validation
error; the pipeline computes the quota plan and returns an empty allocation
set. -/
theorem C4_counterexample :
    (apply_affirmative_action default_quotas [] []).map
      (fun out => out.final_allocations) = .ok [] := by decide

unseal List.merge List.mergeSort in
/-- C4 (amended): `apply_affirmative_action` performs no emptiness validation
at all: for every quota table and internship list, an empty match list flows
through quota planning and allocation and yields a successful result with an
empty `final_allocations` — no error of any kind is raised before or during
the computation. -/
theorem C4_no_empty_input_validation (quotas : List (String × ℚ))
    (internships : List Internship) :
    ∃ out, apply_affirmative_action quotas [] internships = .ok out
      ∧ out.final_allocations = [] :=
  ⟨_, rfl, rfl⟩

/-- C5: every record produced by `_apply_diversity_boosts` carries
`boosted_score = min(raw_score + total_boost, 1.0)` where `total_boost` is the
sum of the configured weights (rural +0.05, female +0.03, disability +0.05,
first-generation +0.04) of exactly the applicable indicators, and every
applied indicator is recorded in `boost_reasons` (independently of the
clamping). -/
theorem C5_boosted_score (ms : List MatchRec) {b : MatchRec}
    (hb : b ∈ apply_diversity_boosts ms) :
    ∃ raw : ℚ, b.original_score = some raw
      ∧ b.boosted_score = some (min (raw + boost_factor b) 1)
      ∧ b.score = min (raw + boost_factor b) 1
      ∧ b.diversity_boost = boost_factor b
      ∧ b.boost_reasons = boost_reason_list b := by
  unfold apply_diversity_boosts at hb
  rw [(List.mergeSort_perm (ms.map apply_boost_one)
    (fun a b => decide (b.score ≤ a.score))).mem_iff] at hb
  obtain ⟨m, hm, rfl⟩ := List.mem_map.mp hb
  exact ⟨m.score, rfl, rfl, rfl, rfl, rfl⟩

unseal List.merge List.mergeSort in
/-- Witness for C5 (spec Scenario C): a rural-located candidate gets exactly
the +0.05 boost with `boost_reasons = ["Rural background"]`. -/
theorem C5_boosted_score_witness :
    ∃ raw : ℚ,
      ({ candidate_id := some "c1", internship_id := some "i1", score := 19/20,
         location := "Barnala village, Punjab", original_score := some (9/10),
         boosted_score := some (19/20), diversity_boost := 5/100,
         boost_reasons := ["Rural background"] } : MatchRec).original_score = some raw
      ∧ ({ candidate_id := some "c1", internship_id := some "i1", score := 19/20,
           location := "Barnala village, Punjab", original_score := some (9/10),
           boosted_score := some (19/20), diversity_boost := 5/100,
           boost_reasons := ["Rural background"] } : MatchRec).boosted_score =
          some (min (raw + boost_factor
            { candidate_id := some "c1", internship_id := some "i1", score := 19/20,
              location := "Barnala village, Punjab", original_score := some (9/10),
              boosted_score := some (19/20), diversity_boost := 5/100,
              boost_reasons := ["Rural background"] }) 1)
      ∧ ({ candidate_id := some "c1", internship_id := some "i1", score := 19/20,
           location := "Barnala village, Punjab", original_score := some (9/10),
           boosted_score := some (19/20), diversity_boost := 5/100,
           boost_reasons := ["Rural background"] } : MatchRec).score =
          min (raw + boost_factor
            { candidate_id := some "c1", internship_id := some "i1", score := 19/20,
              location := "Barnala village, Punjab", original_score := some (9/10),
              boosted_score := some (19/20), diversity_boost := 5/100,
              boost_reasons := ["Rural background"] }) 1
      ∧ ({ candidate_id := some "c1", internship_id := some "i1", score := 19/20,
           location := "Barnala village, Punjab", original_score := some (9/10),
           boosted_score := some (19/20), diversity_boost := 5/100,
           boost_reasons := ["Rural background"] } : MatchRec).diversity_boost =
          boost_factor
            { candidate_id := some "c1", internship_id := some "i1", score := 19/20,
              location := "Barnala village, Punjab", original_score := some (9/10),
              boosted_score := some (19/20), diversity_boost := 5/100,
              boost_reasons := ["Rural background"] }
      ∧ ({ candidate_id := some "c1", internship_id := some "i1", score := 19/20,
           location := "Barnala village, Punjab", original_score := some (9/10),
           boosted_score := some (19/20), diversity_boost := 5/100,
           boost_reasons := ["Rural background"] } : MatchRec).boost_reasons =
          boost_reason_list
            { candidate_id := some "c1", internship_id := some "i1", score := 19/20,
              location := "Barnala village, Punjab", original_score := some (9/10),
              boosted_score := some (19/20), diversity_boost := 5/100,
              boost_reasons := ["Rural background"] } :=
  C5_boosted_score
    [{ candidate_id := some "c1", internship_id := some "i1", score := 9/10,
       location := "Barnala village, Punjab" }] (by decide)

/-- C6: `update_quotas` rejects (raising, without touching the stored table)
exactly the percentage tables whose sum is farther than 0.01 from 1.0, and
merges every accepted table into the stored configuration without error. -/
theorem C6_update_quotas (quotas new_quotas : List (String × ℚ)) :
    (1/100 < |(new_quotas.map Prod.snd).sum - 1| →
      update_quotas quotas new_quotas = .error "Quota percentages must sum to 1.0")
    ∧ (|(new_quotas.map Prod.snd).sum - 1| ≤ 1/100 →
      update_quotas quotas new_quotas = .ok (dict_update quotas new_quotas)) := by
  constructor
  · intro hgt
    unfold update_quotas
    rw [if_pos hgt]
  · intro hle
    unfold update_quotas
    rw [if_neg (not_lt.mpr hle)]

/-- Witness for C6: spec Scenario B (`{general:0.5, sc:0.6}`, sum 1.1) is
rejected; a table summing to exactly 1.0 is accepted. -/
theorem C6_update_quotas_witness :
    update_quotas default_quotas [("general", 5/10), ("sc", 6/10)] =
      .error "Quota percentages must sum to 1.0"
    ∧ update_quotas default_quotas
        [("general", 405/1000), ("sc", 15/100), ("st", 75/1000),
         ("obc", 27/100), ("ews", 1/10)] =
      .ok (dict_update default_quotas
        [("general", 405/1000), ("sc", 15/100), ("st", 75/1000),
         ("obc", 27/100), ("ews", 1/10)]) :=
  ⟨(C6_update_quotas _ _).1 (by
      have h : ((([("general", (5:ℚ)/10), ("sc", (6:ℚ)/10)] :
          List (String × ℚ)).map Prod.snd).sum - 1) = 1/10 := by
        norm_num [List.sum_cons, List.sum_nil]
      rw [h, abs_of_pos (by norm_num)]
      norm_num),
   (C6_update_quotas _ _).2 (by norm_num [List.sum_cons, List.sum_nil])⟩

/-- C7: in Phase 2, a non-skipped match that does not take the `general`
branch (own category not `general`, or general slots full) is allocated into
the *first* reserved category of `sc, st, obc, ews` that still has unfilled
slots, with `allocation_type = "merit_in_quota"` — no condition whatsoever on
the candidate's own quota category (the record's `category` field stays the
candidate's own). -/
theorem C7_merit_in_quota_spillover {internships : List Internship}
    {qs : CatCounts} {s : AllocState} {m : MatchRec} (c : Cat)
    (cu : List (Option String × ℕ))
    (hskip : ¬ skip_match internships s m)
    (hgen : ¬(get_candidate_category m = .general ∧
      s.quota_filled.general < qs.general))
    (hfind : [Cat.sc, Cat.st, Cat.obc, Cat.ews].find?
        (fun c' => decide (s.quota_filled.get c' < qs.get c')) = some c)
    (hincr : incr_used m.internship_id s.capacity_used = .ok cu) :
    phase2_step internships qs s m = .ok
      { final_allocations := s.final_allocations
          ++ [create_allocation_record m (get_candidate_category m) "merit_in_quota"]
        quota_filled := s.quota_filled.inc c
        capacity_used := cu
        allocated_candidates := s.allocated_candidates ++ [m.candidate_id] } := by
  simp only [phase2_step]
  rw [if_neg hskip, if_neg hgen, hfind]
  simp only [do_allocate, hincr]

/-- Witness for C7: a `general` candidate fills an open `sc` seat once the
general quota is exhausted. -/
theorem C7_merit_in_quota_spillover_witness :
    phase2_step [{ id := some "i1", capacity := 1 }] { general := 1, sc := 1 }
      { quota_filled := { general := 1 }, capacity_used := [(some "i1", 0)] }
      { candidate_id := some "c2", internship_id := some "i1", score := 1 } = .ok
      { final_allocations := [create_allocation_record
          { candidate_id := some "c2", internship_id := some "i1", score := 1 }
          (get_candidate_category
            { candidate_id := some "c2", internship_id := some "i1", score := 1 })
          "merit_in_quota"]
        quota_filled := { general := 1, sc := 1 }
        capacity_used := [(some "i1", 1)]
        allocated_candidates := [some "c2"] } :=
  C7_merit_in_quota_spillover .sc [(some "i1", 1)]
    (by decide) (by decide) (by decide) (by decide)

/-- C8 counterexample: the salary component of
`enhanced_internship_service._calculate_real_match_score` — the function the
claim cites — is the continuous `min(salary_max / 30000, 1.0)`, not the
claimed step function: at `salary_max = 30000` it yields 1.0 where the claimed
thresholds give 0.8. -/
theorem C8_counterexample :
    real_match_salary_score 30000 = 1
    ∧ spec_salary_step 30000 = 8/10
    ∧ real_match_salary_score 30000 ≠ spec_salary_step 30000 := by
  refine ⟨?_, ?_, ?_⟩ <;> norm_num [real_match_salary_score, spec_salary_step]

/-- C8 (amended): the claimed 10k/15k/25k/40k → 0.2/0.4/0.6/0.8/1.0 step
function is implemented by `internship_scraper_service.
_calculate_salary_attractiveness` (a monotonic step function, entering that
service's weighted score with weight 0.05), while the function the claim
cites, `enhanced_internship_service._calculate_real_match_score`, uses the
continuous `min(salary_max/30000, 1)` for the same 0.05-weighted component. -/
theorem C8_salary_attractiveness :
    (∀ s : ℚ, calculate_salary_attractiveness s = spec_salary_step s)
    ∧ (∀ s t : ℚ, s ≤ t →
        calculate_salary_attractiveness s ≤ calculate_salary_attractiveness t)
    ∧ (∀ sk c l e sal : ℚ, weighted_final_score sk c l e sal
        = sk * (40/100) + c * (25/100) + l * (20/100) + e * (10/100) + sal * (5/100))
    ∧ (∀ s : ℚ, real_match_salary_score s = min (s / 30000) 1) := by
  refine ⟨?_, ?_, fun _ _ _ _ _ => rfl, fun _ => rfl⟩
  · intro s
    unfold calculate_salary_attractiveness spec_salary_step
    split_ifs <;> first | rfl | linarith
  · intro s t hst
    unfold calculate_salary_attractiveness
    split_ifs <;> linarith

/-- Witness for the amended C8: threshold agreement at 20000 and monotonicity
across 12000 ≤ 30000. -/
theorem C8_salary_attractiveness_witness :
    calculate_salary_attractiveness 20000 = spec_salary_step 20000
    ∧ calculate_salary_attractiveness 12000 ≤ calculate_salary_attractiveness 30000 :=
  ⟨C8_salary_attractiveness.1 20000,
   C8_salary_attractiveness.2.1 12000 30000 (by norm_num)⟩
